import Mathlib

/-!
# Tap-In: authentication daemons

A shallow embedding of `TapIn_PAM/daemon/tapin_helper.c` (the validation and
issuance service) and `TapIn_PAM/daemon/bluetooth_listener.c` (the transport
listener), with the properties of their request validation, token issuance
and relay handling.

Conventions.

* A C `char` is a byte, `CChar = Fin 256`.  A C string is the list of its
  characters up to, and without, the terminating NUL.  A raw buffer filled by
  `read` or `fgets` may hold NUL bytes; `cstr` is the string a `char*` to it
  denotes.
* `long` and `time_t` are 64-bit, `int` is 32-bit (LP64 Linux, the platform of
  BlueZ); conversions and arithmetic wrap (`wrapLong`, `wrapInt`).
* Library functions (libc, json-c, OpenSSL) are modelled by their documented
  behaviour; `syslog` output is not modelled.
* The outside world (clock, files, random source, sockets) is passed in as
  explicit arguments, and the observable actions of a function are returned as
  a list of events.
-/

namespace TapIn

/-! ## Characters, strings, machine integers -/

/-- C `char`, as a byte. -/
abbrev CChar := Fin 256

/-- C string: the characters before the terminating NUL. -/
abbrev CString := List CChar

/-- String literal of the C source. -/
def ascii (s : String) : CString := s.toList.map (fun c => Fin.ofNat c.toNat)

/-- The C string that a pointer to the start of a NUL-terminated buffer denotes. -/
def cstr (buf : List CChar) : CString := buf.takeWhile (fun c => c ≠ 0)

def LONG_MAX : Int := 2 ^ 63 - 1

def LONG_MIN : Int := -(2 ^ 63)

/-- Two-complement reduction to a 64-bit `long`. -/
def wrapLong (x : Int) : Int := (x + 2 ^ 63) % 2 ^ 64 - 2 ^ 63

/-- Two-complement reduction to a 32-bit `int` (the conversion `long` to `int`). -/
def wrapInt (x : Int) : Int := (x + 2 ^ 31) % 2 ^ 32 - 2 ^ 31

/-- Saturation to the range of `long`, as `strtol` does on overflow. -/
def clampLong (x : Int) : Int := max LONG_MIN (min LONG_MAX x)

/-- libc `abs`, on `int` (the negation of `INT_MIN` wraps). -/
def abs_int (x : Int) : Int := wrapInt (if x < 0 then -x else x)

/-! ## libc: parsing and printing of integers -/

def isspace (c : CChar) : Bool := c.val = 32 || (9 ≤ c.val && c.val ≤ 13)

def isdigit (c : CChar) : Bool := 48 ≤ c.val && c.val ≤ 57

/-- Value of the longest prefix of decimal digits, continuing from `acc`. -/
def digitsValue : Nat → CString → Nat
  | acc, [] => acc
  | acc, c :: rest => if isdigit c then digitsValue (10 * acc + (c.val - 48)) rest else acc

/-- The integer `strtol(s, NULL, 10)` reads, before saturation: leading white
space, an optional sign, then decimal digits. -/
def strtol10 (s : CString) : Int :=
  match s.dropWhile isspace with
  | [] => 0
  | c :: rest =>
    if c.val = 45 then -(digitsValue 0 rest : Int)
    else if c.val = 43 then (digitsValue 0 rest : Int)
    else (digitsValue 0 (c :: rest) : Int)

/-- libc `atol`. -/
def atol (s : CString) : Int := clampLong (strtol10 s)

/-- libc `atoi`: `(int) strtol(s, NULL, 10)`. -/
def atoi (s : CString) : Int := wrapInt (atol s)

/-- Decimal digits of `n`, most significant first, by repeated division. -/
def natDigitsAux : Nat → Nat → List Nat → List Nat
  | 0, _, acc => acc
  | fuel + 1, n, acc =>
    if n < 10 then n :: acc else natDigitsAux fuel (n / 10) (n % 10 :: acc)

def natDigits (n : Nat) : List Nat := natDigitsAux (n + 1) n []

def digitChar (d : Nat) : CChar := Fin.ofNat (48 + d)

/-- Output of the `printf` conversion `%ld`. -/
def decimal (x : Int) : CString :=
  if x < 0 then (45 : CChar) :: (natDigits x.natAbs).map digitChar
  else (natDigits x.natAbs).map digitChar

/-- `snprintf(buf, size, ...)`: the formatted text cut to `size - 1` characters. -/
def snprintf (size : Nat) (text : CString) : CString := text.take (size - 1)

/-- libc `strncmp` on C strings; only the sign of the result matters. -/
def strncmp : CString → CString → Nat → Int
  | _, _, 0 => 0
  | [], [], _ + 1 => 0
  | [], b :: _, _ + 1 => -(b.val : Int)
  | a :: _, [], _ + 1 => (a.val : Int)
  | a :: as, b :: bs, n + 1 => if a = b then strncmp as bs n else (a.val : Int) - (b.val : Int)

def fgetsAux : Nat → List CChar → List CChar
  | 0, _ => []
  | _ + 1, [] => []
  | k + 1, c :: rest => if c.val = 10 then [c] else c :: fgetsAux k rest

/-- libc `fgets(buf, n, stream)` on a stream with the bytes `stream` left:
`none` is the NULL result at end of file, otherwise the bytes stored (at most
`n - 1`, ending after the first newline). -/
def fgets (n : Nat) (stream : List CChar) : Option (List CChar) :=
  if stream = [] then none else some (fgetsAux (n - 1) stream)

/-! ## OpenSSL: HMAC-SHA256 (FIPS 180-4, RFC 2104) -/

/-- Trial division. -/
def isPrime (n : Nat) : Bool := 2 ≤ n && (List.range n).all (fun d => d < 2 || n % d != 0)

/-- The first 64 primes. -/
def primes64 : List Nat := (List.range 312).filter isPrime

/-- Integer `k`-th root of `n`, built from the bit `b - 1` downwards. -/
def irootAux (k n : Nat) : Nat → Nat → Nat
  | 0, r => r
  | b + 1, r => irootAux k n b (if (r + 2 ^ b) ^ k ≤ n then r + 2 ^ b else r)

/-- The first 32 bits of the fractional part of the `k`-th root of `p`. -/
def rootFrac (k p : Nat) : Nat := irootAux k (p * 2 ^ (32 * k)) 40 0 % 2 ^ 32

/-- Round constants: fractional parts of the cube roots of the first 64 primes. -/
def K256 : List Nat := primes64.map (rootFrac 3)

def w32 (x : Nat) : Nat := x % 2 ^ 32

def rotr (x n : Nat) : Nat := w32 ((x >>> n) ||| (x <<< (32 - n)))

def Ch (x y z : Nat) : Nat := (x &&& y) ^^^ ((x ^^^ 0xffffffff) &&& z)

def Maj (x y z : Nat) : Nat := (x &&& y) ^^^ (x &&& z) ^^^ (y &&& z)

def bigSigma0 (x : Nat) : Nat := rotr x 2 ^^^ rotr x 13 ^^^ rotr x 22

def bigSigma1 (x : Nat) : Nat := rotr x 6 ^^^ rotr x 11 ^^^ rotr x 25

def smallSigma0 (x : Nat) : Nat := rotr x 7 ^^^ rotr x 18 ^^^ (x >>> 3)

def smallSigma1 (x : Nat) : Nat := rotr x 17 ^^^ rotr x 19 ^^^ (x >>> 10)

/-- The eight working words of SHA-256. -/
structure Sha256State where
  a : Nat
  b : Nat
  c : Nat
  d : Nat
  e : Nat
  f : Nat
  g : Nat
  h : Nat

/-- Initial hash value: fractional parts of the square roots of the first 8 primes. -/
def sha256Init : Sha256State :=
  ⟨rootFrac 2 2, rootFrac 2 3, rootFrac 2 5, rootFrac 2 7,
   rootFrac 2 11, rootFrac 2 13, rootFrac 2 17, rootFrac 2 19⟩

/-- Big-endian 32-bit words of a byte list. -/
def beWords : List Nat → List Nat
  | b0 :: b1 :: b2 :: b3 :: rest => (((b0 * 256 + b1) * 256 + b2) * 256 + b3) :: beWords rest
  | _ => []

/-- Message schedule: extends the window `w` (most recent word first) by `n` words. -/
def schedule : Nat → List Nat → List Nat
  | 0, w => w
  | n + 1, w =>
    schedule n
      (w32 (smallSigma1 (w.getD 1 0) + w.getD 6 0 + smallSigma0 (w.getD 14 0) + w.getD 15 0) :: w)

def sha256Round (s : Sha256State) (kw : Nat × Nat) : Sha256State :=
  let t1 := s.h + bigSigma1 s.e + Ch s.e s.f s.g + kw.1 + kw.2
  let t2 := bigSigma0 s.a + Maj s.a s.b s.c
  ⟨w32 (t1 + t2), s.a, s.b, s.c, w32 (s.d + t1), s.e, s.f, s.g⟩

def sha256Compress (s : Sha256State) (block : List Nat) : Sha256State :=
  let w := (schedule 48 (beWords block).reverse).reverse
  let r := (K256.zip w).foldl sha256Round s
  ⟨w32 (s.a + r.a), w32 (s.b + r.b), w32 (s.c + r.c), w32 (s.d + r.d),
   w32 (s.e + r.e), w32 (s.f + r.f), w32 (s.g + r.g), w32 (s.h + r.h)⟩

/-- The `n` low bytes of `x`, most significant first. -/
def beBytes (n : Nat) (x : Nat) : List Nat :=
  (List.range n).reverse.map (fun i => (x >>> (8 * i)) % 256)

def sha256Pad (msg : List Nat) : List Nat :=
  msg ++ [0x80] ++ List.replicate ((119 - msg.length % 64) % 64) 0 ++ beBytes 8 (8 * msg.length)

def sha256Blocks : Nat → Sha256State → List Nat → Sha256State
  | 0, s, _ => s
  | n + 1, s, bytes => sha256Blocks n (sha256Compress s (bytes.take 64)) (bytes.drop 64)

def sha256 (msg : List Nat) : List Nat :=
  let p := sha256Pad msg
  let s := sha256Blocks (p.length / 64) sha256Init p
  beBytes 4 s.a ++ beBytes 4 s.b ++ beBytes 4 s.c ++ beBytes 4 s.d ++
  beBytes 4 s.e ++ beBytes 4 s.f ++ beBytes 4 s.g ++ beBytes 4 s.h

def hmacKeyBlock (key : List Nat) : List Nat :=
  let k := if key.length > 64 then sha256 key else key
  k ++ List.replicate (64 - k.length) 0

/-- OpenSSL `HMAC(EVP_sha256(), key, key_len, data, data_len, NULL, &len)`:
the 32 bytes of the digest. -/
def HMAC (key data : CString) : List Nat :=
  let k := hmacKeyBlock (key.map Fin.val)
  sha256 (k.map (fun b => b ^^^ 0x5c) ++ sha256 (k.map (fun b => b ^^^ 0x36) ++ data.map Fin.val))

def hexDigit (d : Nat) : CChar := Fin.ofNat (if d < 10 then 48 + d else 87 + d)

/-- The loop `sprintf(hex_result + i * 2, "%02x", result[i])` over the digest. -/
def hexEncode : List Nat → CString
  | [] => []
  | b :: rest => hexDigit (b / 16 % 16) :: hexDigit (b % 16) :: hexEncode rest

/-! ## json-c -/

/-- A json-c value other than JSON null, as far as the daemons observe it. -/
structure json_value where
  /-- Result of `json_object_is_type(v, json_type_string)`. -/
  is_string : Bool
  /-- Result of `json_object_get_string(v)`: the string itself, or, for a value
  that is not a string, its JSON serialisation. -/
  text : CString
deriving DecidableEq

/-- A parsed top-level value, seen through `json_object_object_get_ex` on the
four keys the daemons look up.  The outer `none` is a missing key (the lookup
returns false; so it does for every key when the value is not an object), the
inner `none` is a member that is JSON null, which json-c represents by the
NULL pointer. -/
structure json_object where
  username : Option (Option json_value)
  timestamp : Option (Option json_value)
  nonce : Option (Option json_value)
  hmac : Option (Option json_value)
deriving DecidableEq

/-- json-c `json_object_get_string`: NULL for the NULL pointer. -/
def json_object_get_string (v : Option json_value) : Option CString := v.map json_value.text

/-- json-c `json_object_is_type(v, json_type_string)`: false for the NULL pointer. -/
def json_object_is_type_string (v : Option json_value) : Bool :=
  match v with
  | some x => x.is_string
  | none => false

/-- The member a JSON string `s` parses to. -/
def json_text (s : CString) : Option (Option json_value) := some (some ⟨true, s⟩)

/-- The object with four text members. -/
def text_request (username timestamp nonce hmac : CString) : json_object :=
  ⟨json_text username, json_text timestamp, json_text nonce, json_text hmac⟩

/-! ## tapin_helper.c -/

def MAX_USERNAME_LENGTH : Nat := 64

def MAX_TOKEN_LENGTH : Nat := 64

def MAX_JSON_LENGTH : Nat := 512

def TOKEN_EXPIRY_SECONDS : Int := 20

/-- Observable actions of the helper daemon while it handles one request. -/
inductive HelperEvent
  | read_clock
  | read_secret
  | build_canonical (data : CString)
  | compute_hmac (data secret : CString)
  | write_token_file (content : CString)
deriving DecidableEq

/-- `read_shared_secret`, on the content of the shared secret file (`none`:
the file cannot be opened): the first line without its newline. -/
def read_shared_secret (file : Option (List CChar)) : Option CString :=
  match file with
  | none => none
  | some content =>
    match fgets 256 content with
    | none => none
    | some line =>
      let secret := cstr line
      let len := secret.length
      if len > 0 ∧ secret.getLast? = some 10 then some (secret.take (len - 1)) else some secret

/-- `validate_hmac`.  The source names both the digest and the accumulator of
the comparison `result`; they are `digest` and `acc` here. -/
def validate_hmac (data received_hmac secret : CString) : Int :=
  let digest := HMAC secret data
  let hex_result := hexEncode digest
  let hmac_len := received_hmac.length
  if hex_result.length ≠ hmac_len then 0
  else
    let acc := (hex_result.zip received_hmac).foldl
      (fun (acc : Nat) p => (acc ||| (p.1.val ^^^ p.2.val)) % 256) 0
    if acc = 0 then 1 else 0

/-- `validate_auth_request`, at clock reading `current_time` and with the
shared secret file `secret_file`: the return value and the actions taken. -/
def validate_auth_request (current_time : Int) (secret_file : Option (List CChar))
    (json_obj : json_object) : Int × List HelperEvent :=
  match json_obj.username, json_obj.timestamp, json_obj.nonce, json_obj.hmac with
  | some username_obj, some timestamp_obj, some nonce_obj, some hmac_obj =>
    match json_object_get_string username_obj, json_object_get_string timestamp_obj,
        json_object_get_string nonce_obj, json_object_get_string hmac_obj with
    | some username, some timestamp_str, some nonce, some hmac =>
      let timestamp := atol timestamp_str
      if abs_int (wrapInt (wrapLong (current_time - timestamp))) > 30 then
        (0, [.read_clock])
      else
        match read_shared_secret secret_file with
        | none => (0, [.read_clock, .read_secret])
        | some secret =>
          let data_to_verify :=
            snprintf 256 (username ++ ascii ":" ++ timestamp_str ++ ascii ":" ++ nonce)
          if validate_hmac data_to_verify hmac secret = 0 then
            (0, [.read_clock, .read_secret, .build_canonical data_to_verify,
                 .compute_hmac data_to_verify secret])
          else
            (1, [.read_clock, .read_secret, .build_canonical data_to_verify,
                 .compute_hmac data_to_verify secret])
    | _, _, _, _ => (0, [])
  | _, _, _, _ => (0, [])

def charset : CString := ascii "abcdefghijklmnopqrstuvwxyzABCDEFGHIJKLMNOPQRSTUVWXYZ0123456789"

/-- The C expression `sizeof charset`: the characters and the terminator. -/
def sizeof_charset : Nat := charset.length + 1

/-- The random source of `generate_auth_token`. -/
structure RandomSource where
  /-- The stream `/dev/urandom`: `none` when it cannot be opened; otherwise the
  `int` that the `i`-th `fread` stores, `none` when that read fails. -/
  urandom : Option (Nat → Option Int)
  /-- Value of the `i`-th call of `rand()`, which is not negative. -/
  rand : Nat → Nat

/-- The character chosen for a successful read:
`charset[(unsigned char)random_byte % (int)(sizeof charset - 1)]`. -/
def token_char (random_byte : Int) : CChar :=
  charset.getD ((random_byte % 256).toNat % (sizeof_charset - 1)) 0

/-- `generate_auth_token(token, size)`: the string left in `token`.  The loop
bound `size - 1` is computed in `size_t`. -/
def generate_auth_token (rng : RandomSource) (size : Nat) : CString :=
  let n := (size + 2 ^ 64 - 1) % 2 ^ 64
  match rng.urandom with
  | none => (List.range n).map (fun i => charset.getD (rng.rand i % (sizeof_charset - 1)) 0)
  | some fread =>
    (List.range n).map (fun i =>
      match fread i with
      | some random_byte => token_char random_byte
      | none => (120 : CChar))

/-- `create_auth_token_file`, at clock reading `now`; `fopen_ok` tells whether
the token file can be opened for writing and `file` is its previous content.
Returns the return value and the new content of the file. -/
def create_auth_token_file (rng : RandomSource) (now : Int) (fopen_ok : Bool)
    (username : CString) (file : Option (List CChar)) : Int × Option (List CChar) :=
  let token := generate_auth_token rng MAX_TOKEN_LENGTH
  let expiry_time := wrapLong (now + TOKEN_EXPIRY_SECONDS)
  if !fopen_ok then (0, file)
  else
    (1, some (username ++ ascii ":" ++ token ++ ascii ":" ++ decimal expiry_time ++ ascii "\n"))

/-- What the helper daemon reads from outside while it handles one request. -/
structure HelperEnv where
  json_tokener_parse : CString → Option json_object
  validate_time : Int
  secret_file : Option (List CChar)
  rng : RandomSource
  issue_time : Int
  token_fopen_ok : Bool

/-- `process_auth_request`: return value, actions and the new content of the
token file. -/
def process_auth_request (env : HelperEnv) (json_data : CString) (file : Option (List CChar)) :
    Int × List HelperEvent × Option (List CChar) :=
  match env.json_tokener_parse json_data with
  | none => (0, [], file)
  | some json_obj =>
    let v := validate_auth_request env.validate_time env.secret_file json_obj
    if v.1 = 0 then (0, v.2, file)
    else
      -- the lookup cannot fail here: validation has succeeded
      let username := ((json_obj.username.getD none).map json_value.text).getD []
      let r := create_auth_token_file env.rng env.issue_time env.token_fopen_ok username file
      (r.1, v.2 ++ (if r.1 = 0 then [] else [.write_token_file (r.2.getD [])]), r.2)

/-! ## bluetooth_listener.c -/

def MAX_BUFFER_SIZE : Nat := 1024

/-- `is_device_paired`, on the outcome of `popen` for the trust query: `none`
when the command cannot be run, otherwise the bytes it prints. -/
def is_device_paired (popen : Option (List CChar)) : Int :=
  match popen with
  | none => 0
  | some output =>
    match fgets 10 output with
    | some result_str => atoi (cstr result_str)
    | none => 0

/-- `validate_auth_request_format`. -/
def validate_auth_request_format (json_tokener_parse : CString → Option json_object)
    (data : CString) : Int :=
  match json_tokener_parse data with
  | none => 0
  | some json_obj =>
    match json_obj.username, json_obj.timestamp, json_obj.nonce, json_obj.hmac with
    | some username_obj, some timestamp_obj, some nonce_obj, some hmac_obj =>
      if !json_object_is_type_string username_obj || !json_object_is_type_string timestamp_obj ||
          !json_object_is_type_string nonce_obj || !json_object_is_type_string hmac_obj then 0
      else
        match json_object_get_string username_obj, json_object_get_string timestamp_obj,
            json_object_get_string nonce_obj, json_object_get_string hmac_obj with
        | some username, some timestamp_str, some nonce, some hmac =>
          if username.length > 64 || timestamp_str.length > 20 ||
              nonce.length > 64 || hmac.length > 128 then 0
          else 1
        | _, _, _, _ => 0
    | _, _, _, _ => 0

/-- Outcome of the system calls of one relay exchange. -/
structure RelayEnv where
  socket_ok : Bool
  connect_ok : Bool
  write_ok : Bool
  /-- The bytes the helper daemon sends back; `none` when `read` fails. -/
  response : Option (List CChar)

/-- `send_to_helper_daemon`. -/
def send_to_helper_daemon (env : RelayEnv) (_data : CString) : Int :=
  if !env.socket_ok then 0
  else if !env.connect_ok then 0
  else if !env.write_ok then 0
  else
    match env.response with
    | none => 0
    | some sent =>
      let response := cstr (sent.take (32 - 1))
      if strncmp response (ascii "OK") 2 = 0 then 1 else 0

/-- Observable actions of the listener while it handles one connection. -/
inductive ListenerEvent
  | trust_query (address : CString)
  | read_payload
  | relay_call (data : CString)
  | write_peer (msg : CString)
  | close_peer
deriving DecidableEq

/-- `process_auth_data`: return value and actions. -/
def process_auth_data (json_tokener_parse : CString → Option json_object) (relay : RelayEnv)
    (data : CString) : Int × List ListenerEvent :=
  if validate_auth_request_format json_tokener_parse data = 0 then (0, [])
  else (send_to_helper_daemon relay data, [.relay_call data])

/-- What the listener reads from outside while it handles one connection. -/
structure ConnEnv where
  accept_ok : Bool
  client_address : CString
  /-- Outcome of `popen` for the trust query. -/
  popen : Option (List CChar)
  /-- The bytes the peer sends; `none` when `read` fails. -/
  read : Option (List CChar)
  json_tokener_parse : CString → Option json_object
  relay : RelayEnv

/-- One iteration of the accept loop of `main`: the actions taken. -/
def main_loop_body (env : ConnEnv) : List ListenerEvent :=
  if !env.accept_ok then []
  else if is_device_paired env.popen = 0 then
    [.trust_query env.client_address, .close_peer]
  else
    match env.read with
    | none => [.trust_query env.client_address, .read_payload, .close_peer]
    | some sent =>
      let received := sent.take (MAX_BUFFER_SIZE - 1)
      if received.length > 0 then
        let r := process_auth_data env.json_tokener_parse env.relay (cstr received)
        [.trust_query env.client_address, .read_payload] ++ r.2 ++
          [.write_peer (if r.1 = 0 then ascii "ERR" else ascii "ACK"), .close_peer]
      else [.trust_query env.client_address, .read_payload, .close_peer]

/-! ## Vocabulary of the specification -/

/-- Strict reading of a run of decimal digits, continuing from `acc`. -/
def decimalNat : Nat → CString → Option Nat
  | acc, [] => some acc
  | acc, c :: rest => if isdigit c then decimalNat (10 * acc + (c.val - 48)) rest else none

/-- The integer a decimal text denotes: an optional minus sign followed by one
or more decimal digits and nothing else. -/
def decimalInt (s : CString) : Option Int :=
  match s with
  | [] => none
  | c :: rest =>
    if c.val = 45 then
      (if rest = [] then none else (decimalNat 0 rest).map (fun (n : Nat) => -(n : Int)))
    else (decimalNat 0 (c :: rest)).map (fun (n : Nat) => (n : Int))

/-- The 62-symbol alphabet of tokens: `a`-`z`, `A`-`Z`, `0`-`9`. -/
def alnum (c : CChar) : Bool :=
  (97 ≤ c.val && c.val ≤ 122) || (65 ≤ c.val && c.val ≤ 90) || (48 ≤ c.val && c.val ≤ 57)

/-- Number of the 256 byte values for which a successful read of the random
source selects the character `c`. -/
def selecting_bytes (c : CChar) : Nat :=
  ((List.range 256).filter (fun b => token_char (b : Int) = c)).length

/-- The credential record `username:token:expiry\n`. -/
def credential_record (username token : CString) (expiry : Int) : CString :=
  username ++ ascii ":" ++ token ++ ascii ":" ++ decimal expiry ++ ascii "\n"

/-- A member that is missing or is JSON null. -/
def missing_or_null (m : Option (Option json_value)) : Bool :=
  match m with
  | some (some _) => false
  | _ => true

/-- The text of a member as `json_object_get_string` gives it; empty for a
member that is missing or null. -/
def member_text (m : Option (Option json_value)) : CString :=
  match m with
  | some (some v) => v.text
  | _ => []

/-- Value of a lower-case hex digit: `0`-`9` are 0 to 9, `a`-`f` are 10 to 15;
no other character is a digit. -/
def hexValue (c : CChar) : Option Nat :=
  if 48 ≤ c.val ∧ c.val ≤ 57 then some (c.val - 48)
  else if 97 ≤ c.val ∧ c.val ≤ 102 then some (c.val - 87)
  else none

/-- The bytes that a text of lower-case hex digits denotes, two digits for a
byte, the high digit first; `none` for a text of odd length or with a
character that is not a lower-case hex digit. -/
def hexDecode : CString → Option (List Nat)
  | [] => some []
  | [_] => none
  | hi :: lo :: rest =>
    match hexValue hi, hexValue lo, hexDecode rest with
    | some h, some l, some bytes => some ((16 * h + l) :: bytes)
    | _, _, _ => none

/-! ## Lemmas on the library functions -/

theorem lor_eq_zero {a b : Nat} : a ||| b = 0 ↔ a = 0 ∧ b = 0 := by
  constructor
  · intro h
    have key : ∀ i, a.testBit i = false ∧ b.testBit i = false := by
      intro i
      have := congrArg (fun n => Nat.testBit n i) h
      simpa [Nat.testBit_or] using this
    exact ⟨Nat.eq_of_testBit_eq (fun i => by simp [(key i).1]),
      Nat.eq_of_testBit_eq (fun i => by simp [(key i).2])⟩
  · rintro ⟨rfl, rfl⟩; rfl

theorem xor_fold_eq_zero (a : List CChar) : ∀ (b : List CChar) (acc : Nat),
    a.length = b.length → acc < 256 →
    ((a.zip b).foldl (fun (acc : Nat) p => (acc ||| (p.1.val ^^^ p.2.val)) % 256) acc = 0 ↔
      acc = 0 ∧ a = b) := by
  induction a with
  | nil =>
    intro b acc hlen _
    cases b with
    | nil => simp
    | cons y bs => simp at hlen
  | cons x as ih =>
    intro b acc hlen hacc
    cases b with
    | nil => simp at hlen
    | cons y bs =>
      have hlen2 : as.length = bs.length := by simpa using hlen
      have hx : x.val ^^^ y.val < 2 ^ 8 := Nat.xor_lt_two_pow x.isLt y.isLt
      have hor : acc ||| (x.val ^^^ y.val) < 2 ^ 8 := Nat.or_lt_two_pow hacc hx
      have hmod : (acc ||| (x.val ^^^ y.val)) % 256 = acc ||| (x.val ^^^ y.val) :=
        Nat.mod_eq_of_lt hor
      simp only [List.zip_cons_cons, List.foldl_cons]
      rw [ih bs _ hlen2 (Nat.mod_lt _ (by decide)), hmod, lor_eq_zero, Nat.xor_eq_zero]
      constructor
      · rintro ⟨⟨h0, hxy⟩, hrest⟩
        exact ⟨h0, by rw [Fin.ext hxy, hrest]⟩
      · rintro ⟨h0, heq⟩
        injection heq with h1 h2
        exact ⟨⟨h0, congrArg Fin.val h1⟩, h2⟩

theorem hexEncode_length (l : List Nat) : (hexEncode l).length = 2 * l.length := by
  induction l with
  | nil => rfl
  | cons b rest ih => simp only [hexEncode, List.length_cons, ih]; omega

theorem beBytes_length (n x : Nat) : (beBytes n x).length = n := by
  simp [beBytes]

theorem sha256_length (msg : List Nat) : (sha256 msg).length = 32 := by
  simp [sha256, beBytes_length]

theorem HMAC_length (key data : CString) : (HMAC key data).length = 32 := by
  simp [HMAC, sha256_length]

theorem beBytes_lt (n x : Nat) : ∀ b ∈ beBytes n x, b < 256 := by
  intro b hb
  simp only [beBytes, List.mem_map] at hb
  obtain ⟨i, _, rfl⟩ := hb
  exact Nat.mod_lt _ (by decide)

theorem sha256_lt (msg : List Nat) : ∀ b ∈ sha256 msg, b < 256 := by
  intro b hb
  simp only [sha256, List.mem_append] at hb
  rcases hb with hb | hb
  · repeat (first | exact beBytes_lt _ _ _ hb | (rcases hb with hb | hb))
  · exact beBytes_lt _ _ _ hb

theorem hexDigit_mem (d : Nat) (hd : d < 16) : hexDigit d ∈ ascii "0123456789abcdef" := by
  revert d
  decide

theorem hexEncode_mem (l : List Nat) : ∀ c ∈ hexEncode l, c ∈ ascii "0123456789abcdef" := by
  induction l with
  | nil => intro c hc; simp [hexEncode] at hc
  | cons b rest ih =>
    intro c hc
    simp only [hexEncode, List.mem_cons] at hc
    rcases hc with rfl | rfl | hc
    · exact hexDigit_mem _ (Nat.mod_lt _ (by decide))
    · exact hexDigit_mem _ (Nat.mod_lt _ (by decide))
    · exact ih c hc

theorem validate_hmac_eq_one_iff (data received_hmac secret : CString) :
    validate_hmac data received_hmac secret = 1 ↔
      received_hmac = hexEncode (HMAC secret data) := by
  unfold validate_hmac
  simp only []
  by_cases hlen : (hexEncode (HMAC secret data)).length = received_hmac.length
  · rw [if_neg (by simpa using hlen)]
    have h := xor_fold_eq_zero _ received_hmac 0 hlen (by decide)
    by_cases hacc : (List.foldl (fun (acc : Nat) (p : CChar × CChar) => (acc ||| (p.1.val ^^^ p.2.val)) % 256) 0
        ((hexEncode (HMAC secret data)).zip received_hmac)) = 0
    · rw [if_pos hacc]
      simp only [true_iff]
      exact ((h.mp hacc).2).symm
    · rw [if_neg hacc]
      simp only [zero_ne_one, false_iff]
      intro heq
      exact hacc (h.mpr ⟨rfl, heq.symm⟩)
  · rw [if_pos (by simpa using hlen)]
    simp only [zero_ne_one, false_iff]
    intro heq
    exact hlen (by rw [heq])

theorem validate_hmac_zero_or_one (data received_hmac secret : CString) :
    validate_hmac data received_hmac secret = 0 ∨ validate_hmac data received_hmac secret = 1 := by
  unfold validate_hmac
  simp only []
  split_ifs <;> simp

theorem decimalNat_digitsValue (s : CString) : ∀ (acc v : Nat),
    decimalNat acc s = some v → digitsValue acc s = v := by
  induction s with
  | nil => intro acc v h; simpa [decimalNat, digitsValue] using h
  | cons c rest ih =>
    intro acc v h
    simp only [decimalNat] at h
    simp only [digitsValue]
    split_ifs at h with hd
    rw [if_pos hd]
    exact ih _ _ h

theorem decimalNat_head_isdigit (c : CChar) (rest : CString) (acc v : Nat)
    (h : decimalNat acc (c :: rest) = some v) : isdigit c = true := by
  simp only [decimalNat] at h
  split_ifs at h with hd
  exact hd

theorem strtol10_of_decimalInt (s : CString) (t : Int) (h : decimalInt s = some t) :
    strtol10 s = t := by
  cases s with
  | nil => simp [decimalInt] at h
  | cons c rest =>
    simp only [decimalInt] at h
    by_cases hc : c.val = 45
    · rw [if_pos hc] at h
      split_ifs at h with hr
      obtain ⟨n, hn, rfl⟩ := Option.map_eq_some'.mp h
      have hsp : isspace c = false := by simp [isspace, hc]
      simp only [strtol10, List.dropWhile_cons, hsp, Bool.false_eq_true, if_false, hc, if_true]
      rw [decimalNat_digitsValue _ _ _ hn]
    · rw [if_neg hc] at h
      obtain ⟨n, hn, rfl⟩ := Option.map_eq_some'.mp h
      have hd := decimalNat_head_isdigit _ _ _ _ hn
      have hd2 : 48 ≤ c.val ∧ c.val ≤ 57 := by simpa [isdigit] using hd
      have hsp : isspace c = false := by
        simp only [isspace, Bool.or_eq_false_iff, Bool.and_eq_false_iff, decide_eq_false_iff_not]
        omega
      have h43 : ¬ c.val = 43 := by omega
      simp only [strtol10, List.dropWhile_cons, hsp, Bool.false_eq_true, if_false, hc, h43]
      rw [decimalNat_digitsValue _ _ _ hn]

theorem atol_of_decimalInt (s : CString) (t : Int) (h : decimalInt s = some t) :
    atol s = clampLong t := by
  rw [atol, strtol10_of_decimalInt s t h]

theorem freshness_passes (now t : Int) (hnow : LONG_MIN ≤ now ∧ now ≤ LONG_MAX)
    (h : |now - t| ≤ 30) :
    ¬ abs_int (wrapInt (wrapLong (now - clampLong t))) > 30 := by
  have h1 := abs_le.mp h
  obtain ⟨hlo, hhi⟩ := hnow
  simp only [LONG_MIN, LONG_MAX] at hlo hhi
  simp only [abs_int, wrapInt, wrapLong, clampLong, LONG_MIN, LONG_MAX, max_def, min_def]
  split_ifs <;> omega

theorem snprintf_canonical (username timestamp nonce : CString)
    (hu : username.length ≤ 64) (hts : timestamp.length ≤ 20) (hn : nonce.length ≤ 64) :
    snprintf 256 (username ++ ascii ":" ++ timestamp ++ ascii ":" ++ nonce) =
      username ++ ascii ":" ++ timestamp ++ ascii ":" ++ nonce := by
  unfold snprintf
  apply List.take_of_length_le
  have h1 : (ascii ":").length = 1 := by decide
  simp only [List.length_append, h1]
  omega

/-- C1. A request whose four members are text within the bounds 64/20/64/128,
whose timestamp is the decimal text of an integer `t` with `|now - t| ≤ 30`,
and whose hmac member is the lower-case hex encoding of HMAC-SHA256 of
`username:timestamp:nonce` under the secret read from the secret file, is
accepted by `validate_auth_request` (return value 1). -/
theorem validate_auth_request_accepts
    (now t : Int) (secret_file : Option (List CChar))
    (secret username timestamp nonce hmac : CString)
    (hnow : LONG_MIN ≤ now ∧ now ≤ LONG_MAX)
    (hu : username.length ≤ 64) (hts : timestamp.length ≤ 20)
    (hn : nonce.length ≤ 64) (_hh : hmac.length ≤ 128)
    (hdec : decimalInt timestamp = some t) (hfresh : |now - t| ≤ 30)
    (hsecret : read_shared_secret secret_file = some secret)
    (hsig : hmac =
      hexEncode (HMAC secret (username ++ ascii ":" ++ timestamp ++ ascii ":" ++ nonce))) :
    (validate_auth_request now secret_file (text_request username timestamp nonce hmac)).1 = 1 := by
  have hgate := freshness_passes now t hnow hfresh
  have hv : validate_hmac (username ++ ascii ":" ++ timestamp ++ ascii ":" ++ nonce) hmac secret
      = 1 := (validate_hmac_eq_one_iff _ _ _).mpr hsig
  simp only [validate_auth_request, text_request, json_text, json_object_get_string, Option.map,
    atol_of_decimalInt timestamp t hdec, if_neg hgate, hsecret,
    snprintf_canonical username timestamp nonce hu hts hn, hv]
  simp

theorem validate_auth_request_accepts_witness :
    (validate_auth_request 1700000000 (some (ascii "s3cr3t\n"))
      (text_request (ascii "alice") (ascii "1700000000") (ascii "abc123")
        (ascii "2df583328f47dc7bde0801182e8df8834c1dcac5723355d2ce1c4e87fa24911c"))).1 = 1 :=
  validate_auth_request_accepts 1700000000 1700000000 (some (ascii "s3cr3t\n"))
    (ascii "s3cr3t") (ascii "alice") (ascii "1700000000") (ascii "abc123")
    (ascii "2df583328f47dc7bde0801182e8df8834c1dcac5723355d2ce1c4e87fa24911c")
    (by decide) (by decide) (by decide) (by decide) (by decide) (by decide) (by norm_num)
    (by decide) (by decide!)

theorem hexValue_hexDigit (d : Nat) (hd : d < 16) : hexValue (hexDigit d) = some d := by
  revert d
  decide

set_option maxRecDepth 100000 in
theorem hexDigit_of_hexValue_aux :
    ∀ c : CChar, ∀ d ∈ hexValue c, d < 16 ∧ hexDigit d = c := by
  decide!

theorem hexDigit_of_hexValue (c : CChar) (d : Nat) (h : hexValue c = some d) :
    d < 16 ∧ hexDigit d = c :=
  hexDigit_of_hexValue_aux c d (Option.mem_def.mpr h)

theorem hexDecode_hexEncode (bytes : List Nat) (h : ∀ b ∈ bytes, b < 256) :
    hexDecode (hexEncode bytes) = some bytes := by
  induction bytes with
  | nil => rfl
  | cons b rest ih =>
    have hb : b < 256 := h b (List.mem_cons_self _ _)
    have hrest := ih (fun x hx => h x (List.mem_cons_of_mem _ hx))
    simp only [hexEncode, hexDecode, hexValue_hexDigit _ (Nat.mod_lt _ (by decide : 0 < 16)),
      hrest]
    congr 2
    omega

theorem hexEncode_of_hexDecode (bytes : List Nat) : ∀ (s : CString),
    hexDecode s = some bytes → s = hexEncode bytes := by
  induction bytes with
  | nil =>
    intro s h
    match s, h with
    | [], _ => rfl
    | [_], h => simp [hexDecode] at h
    | hi :: lo :: rest, h =>
      simp only [hexDecode] at h
      split at h <;> simp at h
  | cons b bs ih =>
    intro s h
    match s, h with
    | [], h => simp [hexDecode] at h
    | [_], h => simp [hexDecode] at h
    | hi :: lo :: rest, h =>
      simp only [hexDecode] at h
      split at h
      · rename_i hv lv bytes hh hl hr
        simp only [Option.some.injEq, List.cons.injEq] at h
        obtain ⟨hb, hbs⟩ := h
        subst hbs
        obtain ⟨hh16, hhd⟩ := hexDigit_of_hexValue _ _ hh
        obtain ⟨hl16, hld⟩ := hexDigit_of_hexValue _ _ hl
        have e1 : b / 16 % 16 = hv := by omega
        have e2 : b % 16 = lv := by omega
        simp only [hexEncode, e1, e2, hhd, hld, ih rest hr]
      · simp at h

/-- C2. `validate_hmac` returns success (1) exactly when the claimed text is
the hex encoding of the computed digest, and returns 0 for every other claimed
text, whatever its length and however many characters differ; that encoding
has 64 characters, two lower-case hex digits for each of the 32 digest bytes.
Read independently of the encoder: success exactly when the claimed text
consists of pairs of lower-case hex digits (`0`-`9`, `a`-`f`, high digit
first) whose values are, in order, the bytes of the digest; the encoding of
the digest is the one text that reads so. -/
theorem validate_hmac_iff (data received_hmac secret : CString) :
    (validate_hmac data received_hmac secret = 1 ↔
      received_hmac = hexEncode (HMAC secret data)) ∧
    (validate_hmac data received_hmac secret = 0 ↔
      received_hmac ≠ hexEncode (HMAC secret data)) ∧
    (HMAC secret data).length = 32 ∧
    (∀ b ∈ HMAC secret data, b < 256) ∧
    (hexEncode (HMAC secret data)).length = 64 ∧
    (∀ c ∈ hexEncode (HMAC secret data), c ∈ ascii "0123456789abcdef") ∧
    (validate_hmac data received_hmac secret = 1 ↔
      hexDecode received_hmac = some (HMAC secret data)) ∧
    (validate_hmac data received_hmac secret = 0 ↔
      hexDecode received_hmac ≠ some (HMAC secret data)) ∧
    hexDecode (hexEncode (HMAC secret data)) = some (HMAC secret data) ∧
    (∀ s : CString, hexDecode s = some (HMAC secret data) ↔
      s = hexEncode (HMAC secret data)) := by
  have h1 := validate_hmac_eq_one_iff data received_hmac secret
  have hlt : ∀ b ∈ HMAC secret data, b < 256 := fun b hb => sha256_lt _ b hb
  have hround := hexDecode_hexEncode (HMAC secret data) hlt
  have hdec : ∀ s : CString, hexDecode s = some (HMAC secret data) ↔
      s = hexEncode (HMAC secret data) := by
    intro s
    constructor
    · exact hexEncode_of_hexDecode _ s
    · intro hs
      rw [hs]
      exact hround
  have h0 : validate_hmac data received_hmac secret = 0 ↔
      received_hmac ≠ hexEncode (HMAC secret data) := by
    rcases validate_hmac_zero_or_one data received_hmac secret with h0 | h0
    · rw [h0]
      simp only [true_iff]
      intro heq
      have := h1.mpr heq
      rw [h0] at this
      exact absurd this (by decide)
    · rw [h0]
      simp only [one_ne_zero, false_iff, not_not]
      exact h1.mp h0
  refine ⟨h1, h0, HMAC_length _ _, hlt, ?_, hexEncode_mem _, ?_, ?_, hround, hdec⟩
  · rw [hexEncode_length, HMAC_length]
  · rw [h1, hdec]
  · exact h0.trans (not_congr (hdec received_hmac)).symm

/-- C3 (failing input). At clock reading 1700000000 the request
alice / 5994967296 / abc123, signed with the secret, carries a timestamp
2^32 seconds in the future, yet it passes the freshness gate and is accepted:
the difference is narrowed to `int` by `abs` before it is compared with 30. -/
theorem validate_auth_request_stale_accepted :
    decimalInt (ascii "5994967296") = some 5994967296 ∧
    |(1700000000 : Int) - 5994967296| > 30 ∧
    validate_auth_request 1700000000 (some (ascii "s3cr3t\n"))
      (text_request (ascii "alice") (ascii "5994967296") (ascii "abc123")
        (ascii "9b4ca6ca36e822d7167273d5b86dce78533e84ef5b71dddf5bb390ca7f4c2727")) =
      (1, [.read_clock, .read_secret, .build_canonical (ascii "alice:5994967296:abc123"),
           .compute_hmac (ascii "alice:5994967296:abc123") (ascii "s3cr3t")]) := by
  refine ⟨by decide, by norm_num, by decide!⟩

/-! ## Request validation: missing members -/

theorem validate_auth_request_of_missing (now : Int) (secret_file : Option (List CChar))
    (req : json_object)
    (h : missing_or_null req.username = true ∨ missing_or_null req.timestamp = true ∨
      missing_or_null req.nonce = true ∨ missing_or_null req.hmac = true) :
    validate_auth_request now secret_file req = (0, []) := by
  obtain ⟨u, t, n, m⟩ := req
  rcases u with _ | _ | u <;> rcases t with _ | _ | t <;> rcases n with _ | _ | n <;>
    rcases m with _ | _ | m <;>
    simp [missing_or_null] at h <;>
    simp [validate_auth_request, json_object_get_string]

/-- C4 (counterexample). A request whose username has 65 characters, signed
with the secret, is not rejected by `validate_auth_request`: the canonical
string is built, the digest is computed and the request is accepted. -/
theorem validate_auth_request_oversize_accepted :
    (List.replicate 65 (97 : CChar)).length > 64 ∧
    validate_auth_request 1700000000 (some (ascii "s3cr3t\n"))
      (text_request (List.replicate 65 97) (ascii "1700000000") (ascii "abc123")
        (ascii "65f211943ede49ddb48c3604f59ed0e1a68ec5f6b73ff4ecbf3745bafa4d8e72")) =
      (1, [.read_clock, .read_secret,
           .build_canonical (List.replicate 65 97 ++ ascii ":1700000000:abc123"),
           .compute_hmac (List.replicate 65 97 ++ ascii ":1700000000:abc123")
             (ascii "s3cr3t")]) := by
  refine ⟨by decide, by decide!⟩

/-- C4 (amended). When one of the four required members is missing or is JSON
null, `validate_auth_request` returns 0 without any action (the clock and the
secret are not read, no canonical string is built, no digest is computed), and
`process_auth_request` returns 0 with the same empty trace and leaves the
token file as it was. -/
theorem validate_auth_request_rejects_missing (env : HelperEnv) (json_data : CString)
    (file : Option (List CChar)) (req : json_object)
    (hparse : env.json_tokener_parse json_data = some req)
    (h : missing_or_null req.username = true ∨ missing_or_null req.timestamp = true ∨
      missing_or_null req.nonce = true ∨ missing_or_null req.hmac = true) :
    validate_auth_request env.validate_time env.secret_file req = (0, []) ∧
    process_auth_request env json_data file = (0, [], file) := by
  have hv := validate_auth_request_of_missing env.validate_time env.secret_file req h
  refine ⟨hv, ?_⟩
  simp [process_auth_request, hparse, hv]

theorem validate_auth_request_rejects_missing_witness :
    validate_auth_request 1700000000 (some (ascii "s3cr3t\n"))
        ⟨json_text (ascii "alice"), some none, json_text (ascii "abc123"), none⟩ = (0, []) ∧
    process_auth_request
        ⟨fun _ => some ⟨json_text (ascii "alice"), some none, json_text (ascii "abc123"), none⟩,
          1700000000, some (ascii "s3cr3t\n"), ⟨none, fun i => i⟩, 1700000000, true⟩
        (ascii "payload") (some (ascii "old")) = (0, [], some (ascii "old")) :=
  validate_auth_request_rejects_missing
    ⟨fun _ => some ⟨json_text (ascii "alice"), some none, json_text (ascii "abc123"), none⟩,
      1700000000, some (ascii "s3cr3t\n"), ⟨none, fun i => i⟩, 1700000000, true⟩
    (ascii "payload") (some (ascii "old"))
    ⟨json_text (ascii "alice"), some none, json_text (ascii "abc123"), none⟩ rfl
    (Or.inr (Or.inl (by decide)))

/-! ## The trust gate of the listener -/

/-- C5. When `is_device_paired` returns 0 for the peer, which it does in
particular when the query command cannot be run or prints nothing, the
iteration of the accept loop closes the accepted connection at once: the
payload is not read, the relay client is not called and nothing is written to
the peer. -/
theorem untrusted_peer_closed (env : ConnEnv) (h : is_device_paired env.popen = 0) :
    is_device_paired none = 0 ∧ is_device_paired (some []) = 0 ∧
    (env.accept_ok = true →
      main_loop_body env = [.trust_query env.client_address, .close_peer]) ∧
    ListenerEvent.read_payload ∉ main_loop_body env ∧
    (∀ data, ListenerEvent.relay_call data ∉ main_loop_body env) ∧
    (∀ msg, ListenerEvent.write_peer msg ∉ main_loop_body env) := by
  refine ⟨by decide, by decide, ?_, ?_, ?_, ?_⟩
  · intro ha
    simp [main_loop_body, ha, h]
  · cases ha : env.accept_ok <;> simp [main_loop_body, ha, h]
  · intro data
    cases ha : env.accept_ok <;> simp [main_loop_body, ha, h]
  · intro msg
    cases ha : env.accept_ok <;> simp [main_loop_body, ha, h]

theorem untrusted_peer_closed_witness :
    is_device_paired none = 0 ∧ is_device_paired (some []) = 0 ∧
    ((true = true) →
      main_loop_body ⟨true, ascii "AA:BB:CC:DD:EE:FF", some (ascii "0\n"),
          some (ascii "payload"), fun _ => none, ⟨true, true, true, some (ascii "OK")⟩⟩ =
        [.trust_query (ascii "AA:BB:CC:DD:EE:FF"), .close_peer]) ∧
    ListenerEvent.read_payload ∉
      main_loop_body ⟨true, ascii "AA:BB:CC:DD:EE:FF", some (ascii "0\n"),
          some (ascii "payload"), fun _ => none, ⟨true, true, true, some (ascii "OK")⟩⟩ ∧
    (∀ data, ListenerEvent.relay_call data ∉
      main_loop_body ⟨true, ascii "AA:BB:CC:DD:EE:FF", some (ascii "0\n"),
          some (ascii "payload"), fun _ => none, ⟨true, true, true, some (ascii "OK")⟩⟩) ∧
    (∀ msg, ListenerEvent.write_peer msg ∉
      main_loop_body ⟨true, ascii "AA:BB:CC:DD:EE:FF", some (ascii "0\n"),
          some (ascii "payload"), fun _ => none, ⟨true, true, true, some (ascii "OK")⟩⟩) :=
  untrusted_peer_closed ⟨true, ascii "AA:BB:CC:DD:EE:FF", some (ascii "0\n"),
    some (ascii "payload"), fun _ => none, ⟨true, true, true, some (ascii "OK")⟩⟩ (by decide)
/-! ## Token issuance -/

theorem wrapLong_of_range (x : Int) (h : LONG_MIN ≤ x ∧ x ≤ LONG_MAX) : wrapLong x = x := by
  obtain ⟨h1, h2⟩ := h
  simp only [LONG_MIN, LONG_MAX] at h1 h2
  simp only [wrapLong]
  omega

theorem create_auth_token_file_opened (rng : RandomSource) (now : Int) (username : CString)
    (file : Option (List CChar)) (hnow : LONG_MIN ≤ now ∧ now + 20 ≤ LONG_MAX) :
    create_auth_token_file rng now true username file =
      (1, some (credential_record username (generate_auth_token rng 64) (now + 20))) := by
  have hw : wrapLong (now + 20) = now + 20 :=
    wrapLong_of_range _ ⟨by have := hnow.1; omega, hnow.2⟩
  simp [create_auth_token_file, credential_record, TOKEN_EXPIRY_SECONDS, MAX_TOKEN_LENGTH, hw]

/-- C6. When the credential file can be opened, `create_auth_token_file`
called for `username` at time `now` returns 1 and replaces the content of the
file, whatever it was, by exactly
`username ++ ":" ++ token ++ ":" ++ decimal (now + 20) ++ "\n"`,
where `token` is the generated token. -/
theorem create_auth_token_file_writes (rng : RandomSource) (now : Int) (username : CString)
    (file : Option (List CChar)) (hnow : LONG_MIN ≤ now ∧ now + 20 ≤ LONG_MAX) :
    create_auth_token_file rng now true username file =
      (1, some (username ++ ascii ":" ++ generate_auth_token rng 64 ++ ascii ":" ++
        decimal (now + 20) ++ ascii "\n")) := by
  rw [create_auth_token_file_opened rng now username file hnow]
  rfl

theorem create_auth_token_file_writes_witness :
    create_auth_token_file ⟨none, fun i => 7 * i⟩ 1700000000 true (ascii "alice")
        (some (ascii "bob:old:1\n")) =
      (1, some (ascii "alice" ++ ascii ":" ++ generate_auth_token ⟨none, fun i => 7 * i⟩ 64 ++
        ascii ":" ++ decimal (1700000000 + 20) ++ ascii "\n")) :=
  create_auth_token_file_writes ⟨none, fun i => 7 * i⟩ 1700000000 (ascii "alice")
    (some (ascii "bob:old:1\n")) (by decide)

theorem charset_getD_alnum (k : Nat) (hk : k < 62) : alnum (charset.getD k 0) = true := by
  revert k
  decide

theorem sizeof_charset_eq : sizeof_charset - 1 = 62 := by decide

theorem token_char_alnum (random_byte : Int) : alnum (token_char random_byte) = true := by
  unfold token_char
  rw [sizeof_charset_eq]
  exact charset_getD_alnum _ (Nat.mod_lt _ (by decide))

theorem generate_auth_token_length (rng : RandomSource) :
    (generate_auth_token rng 64).length = 63 := by
  unfold generate_auth_token
  cases rng.urandom <;> simp

theorem generate_auth_token_alnum (rng : RandomSource) :
    ∀ c ∈ generate_auth_token rng 64, alnum c = true := by
  intro c hc
  unfold generate_auth_token at hc
  cases hu : rng.urandom with
  | none =>
    simp only [hu, List.mem_map] at hc
    obtain ⟨i, _, rfl⟩ := hc
    rw [sizeof_charset_eq]
    exact charset_getD_alnum _ (Nat.mod_lt _ (by decide))
  | some fread =>
    simp only [hu, List.mem_map] at hc
    obtain ⟨i, _, rfl⟩ := hc
    cases fread i with
    | none => decide
    | some random_byte => exact token_char_alnum random_byte

set_option maxRecDepth 100000 in
theorem alnum_iff_mem_charset : ∀ c : CChar, alnum c = true ↔ c ∈ charset := by
  decide!

theorem charset_nodup : charset.Nodup := by
  decide!

/-- C7. Whatever the random source does (the strong source opens or not, any
of its reads fails or not), `generate_auth_token` with the 64-byte buffer
leaves a token of exactly 63 characters, each of them in the alphabet
`a`-`z`, `A`-`Z`, `0`-`9`, which is the set of the 62 distinct characters of
`charset`. -/
theorem generate_auth_token_shape (rng : RandomSource) :
    (generate_auth_token rng MAX_TOKEN_LENGTH).length = 63 ∧
    (∀ c ∈ generate_auth_token rng MAX_TOKEN_LENGTH, alnum c = true) ∧
    (∀ c : CChar, alnum c = true ↔ c ∈ charset) ∧
    charset.length = 62 ∧ charset.Nodup := by
  exact ⟨generate_auth_token_length rng, generate_auth_token_alnum rng, alnum_iff_mem_charset,
    by decide, charset_nodup⟩

/-- C8 (counterexample). The selection is not uniform: five byte values select
`a`, four select `9`. -/
theorem token_char_not_uniform :
    (97 : CChar) ∈ charset ∧ (57 : CChar) ∈ charset ∧
    selecting_bytes 97 = 5 ∧ selecting_bytes 57 = 4 ∧
    ¬ (∀ c₁ ∈ charset, ∀ c₂ ∈ charset, selecting_bytes c₁ = selecting_bytes c₂) := by
  refine ⟨by decide, by decide, by decide, by decide, ?_⟩
  intro h
  have := h 97 (by decide) 57 (by decide)
  revert this
  decide

/-- C8 (amended). Of the 256 byte values, five select each of the first eight
characters of the alphabet (`a` to `h`) and four select each of the other
fifty-four: for a uniform byte a character has probability 5/256 or 4/256. -/
theorem token_char_distribution (k : Fin 62) :
    selecting_bytes (charset.getD k.val 0) = if k.val < 8 then 5 else 4 := by
  revert k
  decide
/-! ## The relay client -/

theorem strncmp_OK_iff (sent : List CChar) :
    strncmp (cstr (sent.take 31)) (ascii "OK") 2 = 0 ↔ sent.take 2 = ascii "OK" := by
  have hOK : ascii "OK" = [(79 : CChar), 75] := by decide
  have h79 : (((79 : CChar) : Nat) : Int) = 79 := rfl
  have h75 : (((75 : CChar) : Nat) : Int) = 75 := rfl
  rw [hOK]
  cases sent with
  | nil => simp [cstr, strncmp, h79]
  | cons a rest =>
    by_cases ha : a = 79
    · subst ha
      cases rest with
      | nil => simp [cstr, strncmp, h75]
      | cons b rest2 =>
        by_cases hb : b = 75
        · subst hb
          simp [cstr, strncmp, List.takeWhile]
        · by_cases hb0 : b = 0
          · subst hb0
            simp [cstr, strncmp, List.takeWhile, h75]
          · have hne : b.val ≠ 75 := fun h => hb (Fin.ext h)
            simp [cstr, strncmp, List.takeWhile, hb, hb0]
            omega
    · by_cases ha0 : a = 0
      · subst ha0
        simp [cstr, strncmp, List.takeWhile, h79]
      · have hne : a.val ≠ 79 := fun h => ha (Fin.ext h)
        simp [cstr, strncmp, List.takeWhile, ha, ha0]
        omega

theorem send_to_helper_daemon_zero_or_one (env : RelayEnv) (data : CString) :
    send_to_helper_daemon env data = 0 ∨ send_to_helper_daemon env data = 1 := by
  unfold send_to_helper_daemon
  cases env.response <;> simp only [] <;> split_ifs <;> simp

/-- C10. `send_to_helper_daemon` returns 1 exactly when the exchange reached
the read of the response and the bytes read start with `OK`; in every other
case it returns 0: the socket, the connection or the write fails, the read
fails, no byte is read, or the response does not start with `OK` (as `ERR`
with any trailing reason). -/
theorem send_to_helper_daemon_iff (env : RelayEnv) (data : CString) :
    (send_to_helper_daemon env data = 1 ↔
      (env.socket_ok = true ∧ env.connect_ok = true ∧ env.write_ok = true ∧
        ∃ sent, env.response = some sent ∧ sent.take 2 = ascii "OK")) ∧
    (send_to_helper_daemon env data = 0 ∨ send_to_helper_daemon env data = 1) ∧
    send_to_helper_daemon ⟨true, true, true, none⟩ data = 0 ∧
    send_to_helper_daemon ⟨true, true, true, some []⟩ data = 0 ∧
    (∀ reason, send_to_helper_daemon ⟨true, true, true, some (ascii "ERR" ++ reason)⟩ data = 0) := by
  refine ⟨?_, send_to_helper_daemon_zero_or_one env data, rfl, rfl, ?_⟩
  · obtain ⟨s, c, w, r⟩ := env
    cases s <;> cases c <;> cases w <;> cases r <;>
      simp [send_to_helper_daemon, strncmp_OK_iff]
  · intro reason
    have h : ¬ (ascii "ERR" ++ reason).take 2 = ascii "OK" := by
      have hE : ascii "ERR" = [(69 : CChar), 82, 82] := by decide
      have hO : ascii "OK" = [(79 : CChar), 75] := by decide
      rw [hE, hO]
      simp
    simp [send_to_helper_daemon, strncmp_OK_iff, h]
/-! ## The credential record -/

theorem natDigitsAux_lt (fuel : Nat) : ∀ (n : Nat) (acc : List Nat),
    (∀ d ∈ acc, d < 10) → ∀ d ∈ natDigitsAux fuel n acc, d < 10 := by
  induction fuel with
  | zero => intro n acc hacc d hd; exact hacc d (by simpa [natDigitsAux] using hd)
  | succ fuel ih =>
    intro n acc hacc d hd
    simp only [natDigitsAux] at hd
    split_ifs at hd with hn
    · rcases List.mem_cons.mp hd with rfl | hd
      · exact hn
      · exact hacc d hd
    · refine ih (n / 10) (n % 10 :: acc) ?_ d hd
      intro e he
      rcases List.mem_cons.mp he with rfl | he
      · exact Nat.mod_lt _ (by decide)
      · exact hacc e he

theorem natDigitsAux_value (fuel : Nat) : ∀ (n : Nat) (acc : List Nat), n < fuel →
    (natDigitsAux fuel n acc).foldl (fun a d => 10 * a + d) 0 =
      acc.foldl (fun a d => 10 * a + d) n := by
  induction fuel with
  | zero => intro n acc h; omega
  | succ fuel ih =>
    intro n acc h
    simp only [natDigitsAux]
    split_ifs with hn
    · simp
    · rw [ih (n / 10) (n % 10 :: acc) (by omega)]
      simp only [List.foldl_cons]
      congr 1
      omega

theorem natDigitsAux_ne_nil (fuel : Nat) : ∀ (n : Nat) (acc : List Nat), n < fuel →
    natDigitsAux fuel n acc ≠ [] := by
  induction fuel with
  | zero => intro n acc h; omega
  | succ fuel ih =>
    intro n acc h
    simp only [natDigitsAux]
    split_ifs with hn
    · simp
    · exact ih (n / 10) (n % 10 :: acc) (by omega)

theorem natDigits_lt (n : Nat) : ∀ d ∈ natDigits n, d < 10 :=
  natDigitsAux_lt _ _ _ (by simp)

theorem natDigits_value (n : Nat) : (natDigits n).foldl (fun a d => 10 * a + d) 0 = n := by
  unfold natDigits
  rw [natDigitsAux_value _ _ _ (Nat.lt_succ_self n)]
  rfl

theorem natDigits_ne_nil (n : Nat) : natDigits n ≠ [] :=
  natDigitsAux_ne_nil _ _ _ (Nat.lt_succ_self n)

theorem digitChar_val (d : Nat) (hd : d < 10) : (digitChar d).val = 48 + d := by
  revert d
  decide

theorem digitChar_isdigit (d : Nat) (hd : d < 10) : isdigit (digitChar d) = true := by
  revert d
  decide

theorem decimalNat_map_digitChar (ds : List Nat) : ∀ (acc : Nat), (∀ d ∈ ds, d < 10) →
    decimalNat acc (ds.map digitChar) = some (ds.foldl (fun a d => 10 * a + d) acc) := by
  induction ds with
  | nil => intro acc _; rfl
  | cons d rest ih =>
    intro acc h
    have hd : d < 10 := h d (List.mem_cons_self _ _)
    simp only [List.map_cons, decimalNat, digitChar_isdigit d hd, if_true, List.foldl_cons]
    rw [ih _ (fun e he => h e (List.mem_cons_of_mem _ he)), digitChar_val d hd]
    congr 3
    omega

/-- What `%ld` prints reads back as the same integer. -/
theorem decimalInt_decimal (x : Int) : decimalInt (decimal x) = some x := by
  have hlt := natDigits_lt x.natAbs
  have hval := natDigits_value x.natAbs
  have hne := natDigits_ne_nil x.natAbs
  have hmap := decimalNat_map_digitChar (natDigits x.natAbs) 0 hlt
  rw [hval] at hmap
  unfold decimal
  by_cases hx : x < 0
  · rw [if_pos hx]
    have h45 : ((45 : CChar) : Nat) = 45 := rfl
    have hne2 : ¬ (natDigits x.natAbs).map digitChar = [] := by simpa using hne
    simp only [decimalInt, h45, if_true, if_neg hne2, hmap, Option.map_some']
    congr 1
    omega
  · rw [if_neg hx]
    cases hds : natDigits x.natAbs with
    | nil => exact absurd hds hne
    | cons d rest =>
      rw [hds] at hmap hlt
      have hd : d < 10 := hlt d (List.mem_cons_self _ _)
      have hv := digitChar_val d hd
      have h45 : ¬ (digitChar d).val = 45 := by omega
      simp only [List.map_cons] at hmap ⊢
      simp only [decimalInt, if_neg h45, hmap, Option.map_some']
      congr 1
      omega

theorem decimal_injective (x y : Int) (h : decimal x = decimal y) : x = y := by
  have hx := decimalInt_decimal x
  rw [h, decimalInt_decimal y] at hx
  exact (Option.some.inj hx).symm

theorem colon_not_mem_decimal (x : Int) : (58 : CChar) ∉ decimal x := by
  have hlt := natDigits_lt x.natAbs
  have hmem : (58 : CChar) ∉ (natDigits x.natAbs).map digitChar := by
    intro h
    obtain ⟨d, hd, he⟩ := List.mem_map.mp h
    have hv := digitChar_val d (hlt d hd)
    rw [he] at hv
    have h58 : ((58 : CChar) : Nat) = 58 := rfl
    rw [h58] at hv
    have hd10 := hlt d hd
    omega
  unfold decimal
  split_ifs
  · intro h
    rcases List.mem_cons.mp h with h | h
    · exact absurd h (by decide)
    · exact hmem h
  · exact hmem

theorem append_sep_inj {α : Type} (c : α) : ∀ (a b x y : List α), c ∉ x → c ∉ y →
    a ++ c :: x = b ++ c :: y → a = b ∧ x = y := by
  intro a
  induction a with
  | nil =>
    intro b x y hx hy h
    cases b with
    | nil => simpa using h
    | cons b0 b' =>
      simp only [List.nil_append, List.cons_append, List.cons.injEq] at h
      exact absurd (h.2 ▸ List.mem_append_right b' (List.mem_cons_self c y)) hx
  | cons a0 a' ih =>
    intro b x y hx hy h
    cases b with
    | nil =>
      simp only [List.nil_append, List.cons_append, List.cons.injEq] at h
      exact absurd (h.2 ▸ List.mem_append_right a' (List.mem_cons_self c x)) hy
    | cons b0 b' =>
      simp only [List.cons_append, List.cons.injEq] at h
      obtain ⟨h1, h2⟩ := ih b' x y hx hy h.2
      exact ⟨by rw [h.1, h1], h2⟩

theorem credential_record_injective (u₁ u₂ tok₁ tok₂ : CString) (e₁ e₂ : Int)
    (h₁ : ∀ c ∈ tok₁, alnum c = true) (h₂ : ∀ c ∈ tok₂, alnum c = true)
    (h : credential_record u₁ tok₁ e₁ = credential_record u₂ tok₂ e₂) :
    u₁ = u₂ ∧ tok₁ = tok₂ ∧ e₁ = e₂ := by
  have hc : ascii ":" = [(58 : CChar)] := by decide
  have hnl : ascii "\n" = [(10 : CChar)] := by decide
  have hcol : ∀ tok : CString, (∀ c ∈ tok, alnum c = true) → (58 : CChar) ∉ tok := by
    intro tok ht hmem
    exact absurd (ht _ hmem) (by decide)
  have htail : ∀ e : Int, (58 : CChar) ∉ decimal e ++ [(10 : CChar)] := by
    intro e hmem
    rcases List.mem_append.mp hmem with hm | hm
    · exact colon_not_mem_decimal e hm
    · exact absurd hm (by decide)
  simp only [credential_record, hc, hnl] at h
  have h' : (u₁ ++ [(58 : CChar)] ++ tok₁) ++ (58 : CChar) :: (decimal e₁ ++ [(10 : CChar)]) =
      (u₂ ++ [(58 : CChar)] ++ tok₂) ++ (58 : CChar) :: (decimal e₂ ++ [(10 : CChar)]) := by
    simpa [List.append_assoc] using h
  obtain ⟨hl, hr⟩ := append_sep_inj _ _ _ _ _ (htail e₁) (htail e₂) h'
  have he : e₁ = e₂ := decimal_injective _ _ (List.append_cancel_right hr)
  have hl' : u₁ ++ (58 : CChar) :: tok₁ = u₂ ++ (58 : CChar) :: tok₂ := by
    simpa [List.append_assoc] using hl
  obtain ⟨hu, ht⟩ := append_sep_inj _ _ _ _ _ (hcol tok₁ h₁) (hcol tok₂ h₂) hl'
  exact ⟨hu, ht, he⟩

/-- C9. The record written by `create_auth_token_file` determines its parts:
every reading of the file as `username:token:expiry\n` with an alphanumeric
token gives back the username passed in (whatever its characters, `:`
included), the generated token and the expiry `now + 20`, whose decimal text
reads back as that integer; hence two issuances that write the same record
have the same username, token and expiry.  The token has 63 characters of the
alphabet and the expiry is later than the time of issuance. -/
theorem credential_record_roundtrip
    (rng₁ rng₂ : RandomSource) (now₁ now₂ : Int) (u₁ u₂ : CString)
    (f₁ f₂ : Option (List CChar))
    (h₁ : LONG_MIN ≤ now₁ ∧ now₁ + 20 ≤ LONG_MAX)
    (h₂ : LONG_MIN ≤ now₂ ∧ now₂ + 20 ≤ LONG_MAX) :
    (create_auth_token_file rng₁ now₁ true u₁ f₁).2 =
      some (credential_record u₁ (generate_auth_token rng₁ 64) (now₁ + 20)) ∧
    (∀ (u tok : CString) (e : Int), (∀ c ∈ tok, alnum c = true) →
      some (credential_record u tok e) = (create_auth_token_file rng₁ now₁ true u₁ f₁).2 →
      u = u₁ ∧ tok = generate_auth_token rng₁ 64 ∧ e = now₁ + 20) ∧
    decimalInt (decimal (now₁ + 20)) = some (now₁ + 20) ∧
    ((create_auth_token_file rng₁ now₁ true u₁ f₁).2 =
        (create_auth_token_file rng₂ now₂ true u₂ f₂).2 →
      u₁ = u₂ ∧ generate_auth_token rng₁ 64 = generate_auth_token rng₂ 64 ∧
        now₁ + 20 = now₂ + 20) ∧
    (generate_auth_token rng₁ 64).length = 63 ∧
    (∀ c ∈ generate_auth_token rng₁ 64, alnum c = true) ∧
    now₁ < now₁ + 20 := by
  have hw₁ := create_auth_token_file_opened rng₁ now₁ u₁ f₁ h₁
  have hw₂ := create_auth_token_file_opened rng₂ now₂ u₂ f₂ h₂
  have ha₁ := generate_auth_token_alnum rng₁
  have ha₂ := generate_auth_token_alnum rng₂
  refine ⟨by rw [hw₁], ?_, decimalInt_decimal _, ?_, generate_auth_token_length rng₁, ha₁,
    by omega⟩
  · intro u tok e htok h
    rw [hw₁] at h
    exact credential_record_injective _ _ _ _ _ _ htok ha₁ (Option.some.inj h)
  · intro h
    rw [hw₁, hw₂] at h
    exact credential_record_injective _ _ _ _ _ _ ha₁ ha₂ (Option.some.inj h)

theorem credential_record_roundtrip_witness :
    (create_auth_token_file ⟨none, fun i => 7 * i⟩ 1700000000 true (ascii "al:ice") none).2 =
      some (credential_record (ascii "al:ice") (generate_auth_token ⟨none, fun i => 7 * i⟩ 64)
        (1700000000 + 20)) ∧
    (∀ (u tok : CString) (e : Int), (∀ c ∈ tok, alnum c = true) →
      some (credential_record u tok e) =
        (create_auth_token_file ⟨none, fun i => 7 * i⟩ 1700000000 true (ascii "al:ice") none).2 →
      u = ascii "al:ice" ∧ tok = generate_auth_token ⟨none, fun i => 7 * i⟩ 64 ∧
        e = 1700000000 + 20) ∧
    decimalInt (decimal (1700000000 + 20)) = some (1700000000 + 20) ∧
    ((create_auth_token_file ⟨none, fun i => 7 * i⟩ 1700000000 true (ascii "al:ice") none).2 =
        (create_auth_token_file ⟨some (fun _ => none), fun i => i⟩ 1700000005 true
          (ascii "bob") (some [])).2 →
      ascii "al:ice" = ascii "bob" ∧
        generate_auth_token ⟨none, fun i => 7 * i⟩ 64 =
          generate_auth_token ⟨some (fun _ => none), fun i => i⟩ 64 ∧
        (1700000000 : Int) + 20 = 1700000005 + 20) ∧
    (generate_auth_token ⟨none, fun i => 7 * i⟩ 64).length = 63 ∧
    (∀ c ∈ generate_auth_token ⟨none, fun i => 7 * i⟩ 64, alnum c = true) ∧
    (1700000000 : Int) < 1700000000 + 20 :=
  credential_record_roundtrip ⟨none, fun i => 7 * i⟩ ⟨some (fun _ => none), fun i => i⟩
    1700000000 1700000005 (ascii "al:ice") (ascii "bob") none (some []) (by decide) (by decide)
/-! ## The format pre-check of the listener -/

theorem validate_auth_request_format_eq_one_iff
    (json_tokener_parse : CString → Option json_object) (data : CString) :
    validate_auth_request_format json_tokener_parse data = 1 ↔
      ∃ username timestamp nonce hmac,
        json_tokener_parse data = some (text_request username timestamp nonce hmac) ∧
        username.length ≤ 64 ∧ timestamp.length ≤ 20 ∧ nonce.length ≤ 64 ∧ hmac.length ≤ 128 := by
  unfold validate_auth_request_format
  cases hp : json_tokener_parse data with
  | none => simp
  | some r =>
    obtain ⟨u, t, n, m⟩ := r
    rcases u with _ | _ | ⟨us, ut⟩ <;> rcases t with _ | _ | ⟨ts, tt⟩ <;>
      rcases n with _ | _ | ⟨ns, nt⟩ <;> rcases m with _ | _ | ⟨ms, mt⟩ <;>
      simp [text_request, json_text, json_object_is_type_string, json_object_get_string]
    cases us <;> cases ts <;> cases ns <;> cases ms <;> simp
    constructor
    · intro h
      exact ⟨ut, tt, nt, mt, ⟨rfl, rfl, rfl, rfl⟩, h.1.1.1, h.1.1.2, h.1.2, h.2⟩
    · rintro ⟨u', t', n', m', ⟨rfl, rfl, rfl, rfl⟩, h1, h2, h3, h4⟩
      exact ⟨⟨⟨h1, h2⟩, h3⟩, h4⟩

theorem validate_auth_request_format_zero_or_one
    (json_tokener_parse : CString → Option json_object) (data : CString) :
    validate_auth_request_format json_tokener_parse data = 0 ∨
      validate_auth_request_format json_tokener_parse data = 1 := by
  unfold validate_auth_request_format
  cases hp : json_tokener_parse data with
  | none => simp
  | some r =>
    obtain ⟨u, t, n, m⟩ := r
    rcases u with _ | _ | u <;> rcases t with _ | _ | t <;>
      rcases n with _ | _ | n <;> rcases m with _ | _ | m <;>
      dsimp only [json_object_get_string, Option.map] <;> (try split_ifs) <;> simp

/-- C11. `validate_auth_request_format` accepts a payload (returns 1) exactly
when it parses to a record that has the four members username, timestamp,
nonce and hmac, all of them strings, of lengths at most 64, 20, 64 and 128;
in every other case it returns 0.  Lengths exactly at the bounds are
accepted.  When it returns 0, `process_auth_data` returns 0 and the relay
client is not called. -/
theorem validate_auth_request_format_iff
    (json_tokener_parse : CString → Option json_object) (relay : RelayEnv) (data : CString) :
    (validate_auth_request_format json_tokener_parse data = 1 ↔
      ∃ username timestamp nonce hmac,
        json_tokener_parse data = some (text_request username timestamp nonce hmac) ∧
        username.length ≤ 64 ∧ timestamp.length ≤ 20 ∧ nonce.length ≤ 64 ∧
        hmac.length ≤ 128) ∧
    (validate_auth_request_format json_tokener_parse data = 0 ∨
      validate_auth_request_format json_tokener_parse data = 1) ∧
    (∀ c : CChar, validate_auth_request_format
      (fun _ => some (text_request (List.replicate 64 c) (List.replicate 20 c)
        (List.replicate 64 c) (List.replicate 128 c))) data = 1) ∧
    (validate_auth_request_format json_tokener_parse data = 0 →
      process_auth_data json_tokener_parse relay data = (0, []) ∧
      ∀ d, ListenerEvent.relay_call d ∉ (process_auth_data json_tokener_parse relay data).2) := by
  refine ⟨validate_auth_request_format_eq_one_iff _ _,
    validate_auth_request_format_zero_or_one _ _, ?_, ?_⟩
  · intro c
    rw [validate_auth_request_format_eq_one_iff]
    exact ⟨_, _, _, _, rfl, by simp, by simp, by simp, by simp⟩
  · intro h
    simp [process_auth_data, h]

/-! ## The canonical string -/

theorem prefix_sep_inj {α : Type} (c : α) : ∀ (a b x y : List α), c ∉ a → c ∉ b →
    a ++ c :: x = b ++ c :: y → a = b ∧ x = y := by
  intro a
  induction a with
  | nil =>
    intro b x y _ hb h
    cases b with
    | nil => simpa using h
    | cons b0 b' =>
      simp only [List.nil_append, List.cons_append, List.cons.injEq] at h
      exact absurd (h.1 ▸ List.mem_cons_self b0 b') hb
  | cons a0 a' ih =>
    intro b x y ha hb h
    cases b with
    | nil =>
      simp only [List.nil_append, List.cons_append, List.cons.injEq] at h
      exact absurd (h.1 ▸ List.mem_cons_self a0 a') ha
    | cons b0 b' =>
      simp only [List.cons_append, List.cons.injEq] at h
      obtain ⟨h1, h2⟩ := ih b' x y (fun hm => ha (List.mem_cons_of_mem _ hm))
        (fun hm => hb (List.mem_cons_of_mem _ hm)) h.2
      exact ⟨by rw [h.1, h1], h2⟩

theorem build_canonical_of_mem (now : Int) (secret_file : Option (List CChar))
    (username timestamp nonce hmac c : CString)
    (h : HelperEvent.build_canonical c ∈
      (validate_auth_request now secret_file (text_request username timestamp nonce hmac)).2) :
    c = snprintf 256 (username ++ ascii ":" ++ timestamp ++ ascii ":" ++ nonce) := by
  simp only [validate_auth_request, text_request, json_text, json_object_get_string,
    Option.map] at h
  split_ifs at h with hgate
  · simp at h
  · cases hs : read_shared_secret secret_file with
    | none => simp [hs] at h
    | some secret =>
      simp only [hs] at h
      split_ifs at h <;> simpa using h

/-- C12 (counterexample). The requests alice / 1700000000 / abc:123 and
alice / 1700000000:abc / 123 both pass the format pre-check and, at clock
reading 1700000000, the freshness gate; `validate_auth_request` builds the
same canonical string `alice:1700000000:abc:123` for both and accepts both
with the same hmac, although their timestamps and nonces differ. -/
theorem canonical_string_ambiguous :
    validate_auth_request_format
      (fun _ => some (text_request (ascii "alice") (ascii "1700000000") (ascii "abc:123")
        (ascii "4f6244adc674e06eb983f10aad43f162dfc9b25e3d6413a1e120b9aaeeba9829")))
      (ascii "first") = 1 ∧
    validate_auth_request_format
      (fun _ => some (text_request (ascii "alice") (ascii "1700000000:abc") (ascii "123")
        (ascii "4f6244adc674e06eb983f10aad43f162dfc9b25e3d6413a1e120b9aaeeba9829")))
      (ascii "second") = 1 ∧
    validate_auth_request 1700000000 (some (ascii "s3cr3t\n"))
      (text_request (ascii "alice") (ascii "1700000000") (ascii "abc:123")
        (ascii "4f6244adc674e06eb983f10aad43f162dfc9b25e3d6413a1e120b9aaeeba9829")) =
      (1, [.read_clock, .read_secret, .build_canonical (ascii "alice:1700000000:abc:123"),
           .compute_hmac (ascii "alice:1700000000:abc:123") (ascii "s3cr3t")]) ∧
    validate_auth_request 1700000000 (some (ascii "s3cr3t\n"))
      (text_request (ascii "alice") (ascii "1700000000:abc") (ascii "123")
        (ascii "4f6244adc674e06eb983f10aad43f162dfc9b25e3d6413a1e120b9aaeeba9829")) =
      (1, [.read_clock, .read_secret, .build_canonical (ascii "alice:1700000000:abc:123"),
           .compute_hmac (ascii "alice:1700000000:abc:123") (ascii "s3cr3t")]) ∧
    ascii "1700000000" ≠ ascii "1700000000:abc" ∧ ascii "abc:123" ≠ ascii "123" := by
  refine ⟨by decide, by decide, by decide!, by decide!, by decide, by decide⟩

/-- C12 (amended). For two requests that both pass the format pre-check of the
listener and for which `validate_auth_request`, at the same clock reading,
gets past the freshness gate and builds the same canonical string: if no
username and no timestamp of the two contains a colon, then the requests have
the same username, timestamp and nonce. -/
theorem canonical_string_determines_fields
    (json_tokener_parse : CString → Option json_object) (d₁ d₂ : CString)
    (r₁ r₂ : json_object) (now : Int) (secret_file : Option (List CChar)) (c : CString)
    (hp₁ : json_tokener_parse d₁ = some r₁) (hp₂ : json_tokener_parse d₂ = some r₂)
    (hf₁ : validate_auth_request_format json_tokener_parse d₁ = 1)
    (hf₂ : validate_auth_request_format json_tokener_parse d₂ = 1)
    (hc₁ : HelperEvent.build_canonical c ∈ (validate_auth_request now secret_file r₁).2)
    (hc₂ : HelperEvent.build_canonical c ∈ (validate_auth_request now secret_file r₂).2)
    (hu₁ : (58 : CChar) ∉ member_text r₁.username)
    (ht₁ : (58 : CChar) ∉ member_text r₁.timestamp)
    (hu₂ : (58 : CChar) ∉ member_text r₂.username)
    (ht₂ : (58 : CChar) ∉ member_text r₂.timestamp) :
    r₁.username = r₂.username ∧ r₁.timestamp = r₂.timestamp ∧ r₁.nonce = r₂.nonce := by
  obtain ⟨u₁, t₁, n₁, m₁, hr₁, hul₁, htl₁, hnl₁, _⟩ :=
    (validate_auth_request_format_eq_one_iff _ _).mp hf₁
  obtain ⟨u₂, t₂, n₂, m₂, hr₂, hul₂, htl₂, hnl₂, _⟩ :=
    (validate_auth_request_format_eq_one_iff _ _).mp hf₂
  rw [hp₁] at hr₁
  rw [hp₂] at hr₂
  have e₁ : r₁ = text_request u₁ t₁ n₁ m₁ := Option.some.inj hr₁
  have e₂ : r₂ = text_request u₂ t₂ n₂ m₂ := Option.some.inj hr₂
  subst e₁ e₂
  have hcol : ascii ":" = [(58 : CChar)] := by decide
  have k₁ := build_canonical_of_mem _ _ _ _ _ _ _ hc₁
  have k₂ := build_canonical_of_mem _ _ _ _ _ _ _ hc₂
  rw [snprintf_canonical u₁ t₁ n₁ hul₁ htl₁ hnl₁] at k₁
  rw [snprintf_canonical u₂ t₂ n₂ hul₂ htl₂ hnl₂] at k₂
  have heq : u₁ ++ (58 : CChar) :: (t₁ ++ (58 : CChar) :: n₁) =
      u₂ ++ (58 : CChar) :: (t₂ ++ (58 : CChar) :: n₂) := by
    have := k₁.symm.trans k₂
    rw [hcol] at this
    simpa [List.append_assoc] using this
  obtain ⟨hu, hrest⟩ := prefix_sep_inj _ _ _ _ _ hu₁ hu₂ heq
  obtain ⟨ht, hn⟩ := prefix_sep_inj _ _ _ _ _ ht₁ ht₂ hrest
  subst hu ht hn
  exact ⟨rfl, rfl, rfl⟩

theorem canonical_string_determines_fields_witness :
    (text_request (ascii "alice") (ascii "1700000000") (ascii "abc123")
        (ascii "2df583328f47dc7bde0801182e8df8834c1dcac5723355d2ce1c4e87fa24911c")).username =
      (text_request (ascii "alice") (ascii "1700000000") (ascii "abc123")
        (ascii "00")).username ∧
    (text_request (ascii "alice") (ascii "1700000000") (ascii "abc123")
        (ascii "2df583328f47dc7bde0801182e8df8834c1dcac5723355d2ce1c4e87fa24911c")).timestamp =
      (text_request (ascii "alice") (ascii "1700000000") (ascii "abc123")
        (ascii "00")).timestamp ∧
    (text_request (ascii "alice") (ascii "1700000000") (ascii "abc123")
        (ascii "2df583328f47dc7bde0801182e8df8834c1dcac5723355d2ce1c4e87fa24911c")).nonce =
      (text_request (ascii "alice") (ascii "1700000000") (ascii "abc123")
        (ascii "00")).nonce :=
  canonical_string_determines_fields
    (fun d => if d = ascii "signed" then
        some (text_request (ascii "alice") (ascii "1700000000") (ascii "abc123")
          (ascii "2df583328f47dc7bde0801182e8df8834c1dcac5723355d2ce1c4e87fa24911c"))
      else some (text_request (ascii "alice") (ascii "1700000000") (ascii "abc123")
          (ascii "00")))
    (ascii "signed") (ascii "forged") _ _ 1700000010 (some (ascii "s3cr3t\n"))
    (ascii "alice:1700000000:abc123")
    (by decide) (by decide) (by decide) (by decide) (by decide!) (by decide!)
    (by decide) (by decide) (by decide) (by decide)
end TapIn
